import Mathlib

/-!
Verification of the input-understanding and routing pipeline of the planner
repository (FastAPI + SQLAlchemy). The Python sources are shallowly embedded:
pure computations become Lean functions, the database session becomes an
explicit `DB` value threaded through the handlers, and the outcome of each
external LLM call (and of `json.loads` on its raw text) is passed in as an
explicit parameter. JSON values produced by `json.loads` are modelled by the
inductive type `Json` below.
-/

namespace Planner

/-- JSON values as produced by a successful `json.loads`. Numbers are modelled
as integers: the only numeric fields the pipeline logic consumes are integral
task identifiers. -/
inductive Json where
  | null
  | bool (b : Bool)
  | num (n : Int)
  | str (s : String)
  | arr (elems : List Json)
  | obj (fields : List (String × Json))

namespace Json

/-- Key lookup on a JSON object (Python `d[k]` / `k in d`); `none` on a
non-object or an absent key. Objects produced by `json.loads` have unique
keys, so first-match lookup is exact. -/
def lookup : Json → String → Option Json
  | .obj fields, k => fields.lookup k
  | _, _ => none

/-- Python `d.get(k, default)`. The source only applies `.get` to values that
are dicts on every path a theorem exercises; applying it to a non-dict raises
`AttributeError` in Python, which is modelled separately where a claim depends
on it (see `_match_tasks_with_llm`). -/
def getD (j : Json) (k : String) (d : Json) : Json := (j.lookup k).getD d

/-- Whether the value is a JSON object (Python `isinstance(result, dict)`). -/
def isObj : Json → Bool
  | .obj _ => true
  | _ => false

/-- Python truthiness of a JSON value (`if x:`). -/
def truthy : Json → Bool
  | .null => false
  | .bool b => b
  | .num n => n != 0
  | .str s => s != ""
  | .arr xs => !xs.isEmpty
  | .obj fields => !fields.isEmpty

/-- The underlying string of a JSON string. The source uses these values
directly as Python `str`; for a non-string value the corresponding Python
operation would raise, a path no theorem exercises, so the coercion defaults
to the empty string. -/
def asStr : Json → String
  | .str s => s
  | _ => ""

/-- The element list of a JSON array (`for x in v`); iterating a non-list
raises in Python, a path no theorem exercises. -/
def asList : Json → List Json
  | .arr xs => xs
  | _ => []

/-- Rendering of a JSON value the way Python `str()` renders it inside an
f-string. Composite values render with their Python repr in the source; that
rendering is abbreviated here and no theorem depends on it. -/
def pyStr : Json → String
  | .null => "None"
  | .bool true => "True"
  | .bool false => "False"
  | .num n => toString n
  | .str s => s
  | .arr _ => "[...]"
  | .obj _ => "\x7b...\x7d"

end Json

/-- Python truthiness of the optional transcript string (`if transcript:`). -/
def strTruthy : Option String → Bool
  | some s => s != ""
  | none => false

/-- Python `transcript or default`: the transcript when truthy, otherwise the
default. -/
def transcriptOr (t : Option String) (d : String) : String :=
  match t with
  | some s => if s = "" then d else s
  | none => d

/-- The fallback intent built by `classify_intent` when `json.loads` raises on
the gateway raw text (intent.py, `except json.JSONDecodeError`). -/
def memoFallback (transcript : Option String) : Json :=
  .obj [("module", .str "memo"),
        ("title", .str "Voice Memo"),
        ("spoken_response", .str "Got it — saved your memo."),
        ("data", .obj [("content", .str (transcriptOr transcript "Image processed"))])]

/-- The early-return intent built by `classify_intent` when there is neither a
transcript nor an image. -/
def emptyInputMemo : Json :=
  .obj [("module", .str "memo"),
        ("title", .str "Empty Input"),
        ("spoken_response", .str "I didn't catch anything. Could you try again?"),
        ("data", .obj [("content", .str "")])]

/-- The decision logic of `classify_intent` (intent.py). `parsed` is the
outcome of `json.loads` on the stripped raw text of the gateway response
(`none` models a `JSONDecodeError`). The returned value is the Python value
the function returns: an array of intents on every branch except the
pass-through of a gateway-supplied `intents` value, which is returned
verbatim whatever JSON value it is. -/
def classify_intent (transcript : Option String) (hasImage : Bool)
    (parsed : Option Json) : Json :=
  if !strTruthy transcript && !hasImage then
    .arr [emptyInputMemo]
  else
    match parsed with
    | none => .arr [memoFallback transcript]
    | some r =>
      match r with
      | .obj fields =>
        match fields.lookup "intents" with
        | some v => v
        | none => .arr [.obj fields]
      | .arr xs => .arr xs
      | other => .arr [other]

/-- A persisted row of the `entries` table (models.py, class `Entry`). The
`created_at` column is DB-defaulted and never consumed by the pipeline, so it
is omitted; `module_data` is stored as a JSON string in the source
(`json.dumps`) and modelled as the serialized JSON value itself. -/
structure EntryRow where
  id : Nat
  user_id : Nat
  input_type : String
  raw_transcript : Option String
  raw_image_description : Option String
  processed_content : String
  title : String
  module : String
  module_data : Option Json

/-- Modelled from the spec: the `Task` table is imported from `app.models` by
task.py and the dashboard but its class definition is absent from the provided
sources. Columns follow spec section 3 (`{id, record_id, description, group,
priority, status, due_at?, completed_at?}`) and the fields read and written by
task.py and input.py. Timestamps are modelled as abstract `Nat` instants. -/
structure TaskRow where
  id : Nat
  entry_id : Nat
  description : String
  group : String
  priority : String
  due_date : Option Nat
  status : String
  completed_at : Option Nat
deriving DecidableEq, Repr

/-- Modelled from the spec: the `RememberItem` table is imported from
`app.models` but its class definition is absent from the provided sources.
Columns follow spec section 3 and the fields written by remember.py (`tags`
is the comma-joined flat string, NULL when empty). -/
structure RememberRow where
  id : Nat
  entry_id : Nat
  content : String
  category : String
  tags : Option String
deriving DecidableEq, Repr

/-- Modelled from the spec: the `JournalEntry` table is imported from
`app.models` but its class definition is absent from the provided sources.
Columns follow spec section 3 and the fields written by journal.py. -/
structure JournalRow where
  id : Nat
  entry_id : Nat
  content : String
  activity_type : String
  topic : Option String
  date : Nat
deriving DecidableEq, Repr

/-- The database session state visible to the pipeline: the four tables the
handlers touch, plus the autoincrement counters assigning primary keys on
insert. -/
structure DB where
  entries : List EntryRow
  tasks : List TaskRow
  rememberItems : List RememberRow
  journalEntries : List JournalRow
  nextEntryId : Nat
  nextTaskId : Nat
  nextRememberId : Nat
  nextJournalId : Nat

/-- Owner of an entry row, by primary key (the JOIN of `Task` to `Entry` used
throughout task.py filters on `Entry.user_id`). -/
def DB.entryUser (db : DB) (eid : Nat) : Option Nat :=
  (db.entries.find? (fun e => e.id == eid)).map (fun e => e.user_id)

/-- Open tasks of a user: `db.query(Task).join(Entry).filter(Entry.user_id ==
user.id, Task.status == "open")` (task.py and input.py). -/
def DB.openTasks (db : DB) (user : Nat) : List TaskRow :=
  db.tasks.filter (fun t => t.status == "open" && db.entryUser t.entry_id == some user)

/-- Distinct non-empty task group names of a user, as loaded at the start of
`_create_tasks`: `db.query(Task.group).join(Entry).filter(...).distinct()`
followed by dropping falsy names. SQL DISTINCT does not fix an order; the
theorems below only use membership in this list. -/
def DB.userTaskGroups (db : DB) (user : Nat) : List String :=
  (((db.tasks.filter (fun t => db.entryUser t.entry_id == some user)).map
      (fun t => t.group)).dedup).filter (fun g => g != "")

/-- Distinct non-empty remember categories of a user, as loaded at the start
of `handle_remember`. -/
def DB.userRememberCategories (db : DB) (user : Nat) : List String :=
  (((db.rememberItems.filter (fun r => db.entryUser r.entry_id == some user)).map
      (fun r => r.category)).dedup).filter (fun c => c != "")

/-- Distinct non-null journal topics of a user, as loaded at the start of
`handle_journal`. -/
def DB.userJournalTopics (db : DB) (user : Nat) : List String :=
  ((((db.journalEntries.filter (fun j => db.entryUser j.entry_id == some user)).map
      (fun j => j.topic)).reduceOption).dedup).filter (fun t => t != "")

/-- Well-formedness of the session state: primary keys already handed out are
below the autoincrement counters, and task rows reference already-created
entries. Holds for the empty database and is preserved by every handler. -/
structure DB.WF (db : DB) : Prop where
  entry_ids : ∀ e ∈ db.entries, e.id < db.nextEntryId
  task_ids : ∀ t ∈ db.tasks, t.id < db.nextTaskId
  task_entry_refs : ∀ t ∈ db.tasks, t.entry_id < db.nextEntryId

/-- The empty database. -/
def DB.empty : DB := ⟨[], [], [], [], 1, 1, 1, 1⟩

/-- The taxonomy-resolution loop appearing in `_create_tasks`,
`handle_remember` and `handle_journal`: the first known label matching the
candidate case-insensitively wins, otherwise the candidate itself is used.
Python `str.lower` agrees with `String.toLower` on the ASCII labels the
pipeline handles. -/
def resolveLabel (existing : List String) (candidate : String) : String :=
  match existing.find? (fun e => e.toLower == candidate.toLower) with
  | some e => e
  | none => candidate

/-- What a module handler returns (schemas.py `InputResponse`): the spoken
confirmation, the primary entry id, and the handling module. -/
structure HandlerResult where
  spoken_response : String
  entry_id : Nat
  module : String
deriving DecidableEq, Repr

/-- The `intent_data.get("spoken_response", computed)` pattern closing every
handler: a spoken response supplied by the classifier wins over the
handler-computed confirmation. A present non-string value would fail pydantic
validation of `InputResponse` in the source; no theorem exercises that path. -/
def spokenOverride (intent_data : Json) (computed : String) : String :=
  (intent_data.getD "spoken_response" (.str computed)).asStr

/-- Python `str.title()` on the priority label (`t.priority.replace("_", " ")
.title()`): capitalize each space-separated word. -/
def pyTitle (s : String) : String :=
  String.intercalate " " ((s.splitOn " ").map String.capitalize)

/-- Python `sorted(...)` on a list of strings (code-point lexicographic). -/
def pySorted (l : List String) : List String :=
  l.mergeSort (fun a b => a ≤ b)

/-- The per-task-spec context of `_create_tasks`: defaults drawn from the
payload, the request inputs, and the oracle for `datetime.fromisoformat`
(`none` models a `ValueError`/`TypeError`, which the source swallows). -/
structure CreateCtx where
  parseIso : String → Option Nat
  user : Nat
  raw_input : String
  input_type : String
  image_description : Option String
  default_group : Json
  default_priority : Json

/-- The Entry row one iteration of the `for task_data in tasks_data` loop of
`_create_tasks` inserts. -/
def createEntryRow (ctx : CreateCtx) (db : DB) (task_data : Json) : EntryRow :=
  { id := db.nextEntryId
    user_id := ctx.user
    input_type := ctx.input_type
    raw_transcript := if ctx.input_type != "image" then some ctx.raw_input else none
    raw_image_description := ctx.image_description
    processed_content := (task_data.getD "description" (.str "")).asStr
    title := (task_data.getD "description" (.str "Task")).asStr
    module := "task"
    module_data := some task_data }

/-- The Task row the same iteration inserts, in `open` state, with the group
already resolved against the evolving known-group list and the due date
parsed leniently (`none` on a missing, empty, non-string or malformed
value). -/
def createTaskRow (ctx : CreateCtx) (db : DB) (existing : List String)
    (task_data : Json) : TaskRow :=
  { id := db.nextTaskId
    entry_id := db.nextEntryId
    description := (task_data.getD "description" (.str "Task")).asStr
    group := resolveLabel existing ((task_data.getD "group" ctx.default_group).asStr)
    priority := (task_data.getD "priority" ctx.default_priority).asStr
    due_date :=
      match task_data.getD "due" .null with
      | .str s => if s = "" then none else ctx.parseIso s
      | _ => none
    status := "open"
    completed_at := none }

/-- The database after one iteration: both rows committed, counters bumped. -/
def createStepDB (ctx : CreateCtx) (db : DB) (existing : List String)
    (task_data : Json) : DB :=
  { db with entries := db.entries ++ [createEntryRow ctx db task_data],
            tasks := db.tasks ++ [createTaskRow ctx db existing task_data],
            nextEntryId := db.nextEntryId + 1,
            nextTaskId := db.nextTaskId + 1 }

/-- The in-batch accumulation of known groups: `if group not in
existing_group_names: existing_group_names.append(group)`. -/
def stepExisting (existing : List String) (group : String) : List String :=
  if existing.contains group then existing else existing ++ [group]

/-- The `for task_data in tasks_data` loop of `_create_tasks`: resolve the
group, insert the Entry row, then insert the Task row; later iterations see
the groups created by earlier ones. Returns the updated database and the
created task rows in order. -/
def createTasksLoop (ctx : CreateCtx) :
    List Json → DB → List String → DB × List TaskRow
  | [], db, _ => (db, [])
  | task_data :: rest, db, existing =>
    let task := createTaskRow ctx db existing task_data
    let out := createTasksLoop ctx rest (createStepDB ctx db existing task_data)
      (stepExisting existing task.group)
    (out.1, task :: out.2)

/-- Embedding of `_create_tasks` (task.py). The implicit single-task branch,
the group/priority defaults, the known-group snapshot and its in-batch
accumulation, and the singular/aggregate confirmation follow the source; the
computed confirmation is overridden by a classifier-supplied
`spoken_response`. -/
def _create_tasks (parseIso : String → Option Nat) (db : DB) (user : Nat)
    (raw_input : String) (intent_data : Json) (input_type : String)
    (image_description : Option String) : DB × HandlerResult :=
  let data := intent_data.getD "data" (.obj [])
  let tasks_data := data.getD "tasks" (.arr [])
  let default_group := data.getD "group" (.str "General")
  let default_priority := data.getD "priority" (.str "keep_in_mind")
  let tasks_list : List Json :=
    if !tasks_data.truthy && (data.getD "description" .null).truthy then
      [.obj [("description", data.getD "description" .null),
             ("group", data.getD "group" default_group),
             ("priority", data.getD "priority" default_priority),
             ("due", data.getD "due" .null)]]
    else tasks_data.asList
  let ctx : CreateCtx :=
    { parseIso := parseIso, user := user, raw_input := raw_input,
      input_type := input_type, image_description := image_description,
      default_group := default_group, default_priority := default_priority }
  let out := createTasksLoop ctx tasks_list db (db.userTaskGroups user)
  let created := out.2
  let response :=
    match created with
    | [t] =>
      "Added task: " ++ t.description ++ " [" ++ pyTitle (t.priority.replace "_" " ")
        ++ "] under " ++ t.group ++ "."
    | _ =>
      "Added " ++ toString created.length ++ " tasks under "
        ++ String.intercalate ", " (pySorted ((created.map (fun t => t.group)).dedup)) ++ "."
  (out.1,
   { spoken_response := spokenOverride intent_data response
     entry_id := (created.head?.map (fun t => t.entry_id)).getD 0
     module := "task" })

/-- Python equality between an integral task id and a decoded JSON element
(`task.id in matched_ids`); `True == 1` holds in Python, hence the bool case. -/
def idEq (tid : Nat) : Json → Bool
  | .num m => m == (tid : Int)
  | .bool b => (if b then (1 : Int) else 0) == (tid : Int)
  | _ => false

/-- Python `task.id in matched_ids` for a decoded `matched_ids` value on the
non-raising shapes: membership for a list; key membership for a dict, whose
keys decoded from JSON are strings and therefore never equal an integral id.
For null/bool/num/str the Python `in` raises `TypeError`; `inRaises` below
captures that, and the explicit-completion embedding raises there. -/
def idMatched (ids : Json) (tid : Nat) : Bool :=
  match ids with
  | .arr xs => xs.any (idEq tid)
  | _ => false

/-- Whether Python `task.id in matched_ids` raises `TypeError` for this
decoded value: it does for every shape other than a list or a dict. -/
def inRaises : Json → Bool
  | .arr _ => false
  | .obj _ => false
  | _ => true

/-- Embedding of `_match_tasks_with_llm` (task.py) after the matching call.
`outcome` models the call: `Except.error ()` is an exception raised by the
API call itself (which the source does not catch, so it propagates);
`Except.ok none` is a response whose text fails `json.loads` (the one
exception the source catches, returning `[]`); `Except.ok (some j)` is a
parsed response. On a parsed non-object, `result.get` raises
`AttributeError`, which is likewise uncaught. The parsed `matched_ids` value
is returned verbatim, without filtering against the supplied task list. -/
def _match_tasks_with_llm (outcome : Except Unit (Option Json)) : Except Unit Json :=
  match outcome with
  | .error e => .error e
  | .ok none => .ok (.arr [])
  | .ok (some j) =>
    match j with
    | .obj fields => .ok ((fields.lookup "matched_ids").getD (.arr []))
    | _ => .error ()

/-- The confirmation `_complete_tasks` computes when nothing matched. -/
def couldNotFindMsg : String :=
  "I couldn't find a matching open task. Could you be more specific?"

/-- The task-table state after the `for task in open_tasks: if task.id in
matched_ids` mutation loop shared by `_complete_tasks` and
`auto_complete_tasks`: every open task of the user whose id occurs in the
decoded `matched_ids` value flips to `done` with `completed_at = now`. -/
def completeApply (now user : Nat) (db : DB) (ids : Json) : List TaskRow :=
  db.tasks.map (fun t =>
    if t.status == "open" && db.entryUser t.entry_id == some user
        && idMatched ids t.id then
      { t with status := "done", completed_at := some now }
    else t)

/-- The rows the same loop collects into its `matched` / `completed` list (the
mutated objects, in open-task order). -/
def completeMatched (now : Nat) (db : DB) (user : Nat) (ids : Json) : List TaskRow :=
  ((db.openTasks user).filter (fun t => idMatched ids t.id)).map
    (fun t => { t with status := "done", completed_at := some now })

/-- The Entry row `_complete_tasks` always inserts to record the completion
attempt. -/
def completionEntry (db : DB) (user : Nat) (raw_input input_type : String)
    (matched : List TaskRow) : EntryRow :=
  { id := db.nextEntryId
    user_id := user
    input_type := input_type
    raw_transcript := some raw_input
    raw_image_description := none
    processed_content := "Completed " ++ toString matched.length ++ " task(s)"
    title := "Tasks completed"
    module := "task"
    module_data := some (.obj [("action", .str "complete"),
      ("completed", .arr (matched.map (fun t => .str t.description)))]) }

/-- The confirmation `_complete_tasks` computes: the matched descriptions, or
the could-not-find string when nothing matched. -/
def completionResponse (matched : List TaskRow) : String :=
  match matched with
  | [] => couldNotFindMsg
  | _ => "Done! Marked as complete: "
      ++ String.intercalate ", " (matched.map (fun t => t.description)) ++ "."

/-- Embedding of `_complete_tasks` (task.py): load the user's open tasks; if
there are any, consult the matcher (whose call failure propagates) and flip
every open task whose id occurs in `matched_ids` to `done` with
`completed_at = now`; always insert one Entry row recording the completion
attempt; confirm with the matched descriptions or the could-not-find string,
overridden by a classifier-supplied `spoken_response`. When `matched_ids`
decodes to a value Python cannot apply `in` to (null/bool/num/str), the first
iteration of the mutation loop — which runs, since this branch requires an
open task — raises `TypeError` before any mutation or insert, and nothing
catches it here. -/
def _complete_tasks (now : Nat) (db : DB) (user : Nat) (raw_input : String)
    (intent_data : Json) (input_type : String)
    (matcherOutcome : Except Unit (Option Json)) :
    Except Unit (DB × HandlerResult) :=
  let step : Except Unit (List TaskRow × List TaskRow) :=
    if (db.openTasks user).isEmpty then .ok (db.tasks, [])
    else
      match _match_tasks_with_llm matcherOutcome with
      | .error e => .error e
      | .ok ids =>
        if inRaises ids then .error ()
        else .ok (completeApply now user db ids, completeMatched now db user ids)
  match step with
  | .error e => .error e
  | .ok (tasks2, matched) =>
    .ok ({ db with
            tasks := tasks2
            entries := db.entries ++ [completionEntry db user raw_input input_type matched]
            nextEntryId := db.nextEntryId + 1 },
         { spoken_response := spokenOverride intent_data (completionResponse matched)
           entry_id := db.nextEntryId
           module := "task" })

/-- Embedding of `handle_task` (task.py): route on `data.get("action",
"create")`. Only the `complete` branch can propagate an exception (from the
matcher call); `parseIso`, `now` and `matcherOutcome` model the branch-local
externals. -/
def handle_task (parseIso : String → Option Nat) (now : Nat) (db : DB)
    (user : Nat) (raw_input : String) (intent_data : Json) (input_type : String)
    (image_description : Option String)
    (matcherOutcome : Except Unit (Option Json)) :
    Except Unit (DB × HandlerResult) :=
  let data := intent_data.getD "data" (.obj [])
  if (data.getD "action" (.str "create")).asStr = "complete" then
    _complete_tasks now db user raw_input intent_data input_type matcherOutcome
  else
    .ok (_create_tasks parseIso db user raw_input intent_data input_type image_description)

/-- Embedding of `handle_memo` (memo.py): the universal store handler. The
derived description is the first truthy field among content, description,
concept, notes, falling back to the raw input. -/
def handle_memo (db : DB) (user : Nat) (raw_input : String) (intent_data : Json)
    (input_type : String) (image_description : Option String) :
    DB × HandlerResult :=
  let module := (intent_data.getD "module" (.str "memo")).asStr
  let data := intent_data.getD "data" (.obj [])
  let processed : Json :=
    let c := data.getD "content" .null
    if c.truthy then c else
    let d := data.getD "description" .null
    if d.truthy then d else
    let k := data.getD "concept" .null
    if k.truthy then k else
    let n := data.getD "notes" .null
    if n.truthy then n else .str raw_input
  let entry : EntryRow :=
    { id := db.nextEntryId
      user_id := user
      input_type := input_type
      raw_transcript :=
        if input_type = "audio" || input_type = "text" || input_type = "video"
        then some raw_input else none
      raw_image_description := image_description
      processed_content := processed.asStr
      title := (intent_data.getD "title" (.str "Entry")).asStr
      module := module
      module_data := if data.truthy then some data else none }
  let db2 : DB := { db with entries := db.entries ++ [entry],
                            nextEntryId := db.nextEntryId + 1 }
  (db2,
   { spoken_response := spokenOverride intent_data "Saved."
     entry_id := entry.id
     module := module })

/-- The request-scoped context of `handle_remember`. -/
structure RememberCtx where
  user : Nat
  raw_input : String
  input_type : String
  image_description : Option String

/-- One iteration of the `for item in items_data` loop of `handle_remember`:
resolve the category against the evolving known-category list, insert the
Entry row, then insert the RememberItem row. -/
def rememberLoop (ctx : RememberCtx) :
    List Json → DB → List String → DB × List RememberRow
  | [], db, _ => (db, [])
  | item :: rest, db, existing =>
    let category := resolveLabel existing ((item.getD "category" (.str "General")).asStr)
    let tags := item.getD "tags" (.arr [])
    let tags_str :=
      match tags with
      | .arr xs => String.intercalate "," (xs.map Json.asStr)
      | other => other.pyStr
    let entry : EntryRow :=
      { id := db.nextEntryId
        user_id := ctx.user
        input_type := ctx.input_type
        raw_transcript := if ctx.input_type != "image" then some ctx.raw_input else none
        raw_image_description := ctx.image_description
        processed_content := (item.getD "content" (.str "")).asStr
        title := ((item.getD "content" (.str "Remember")).asStr).take 80
        module := "remember"
        module_data := some item }
    let remember : RememberRow :=
      { id := db.nextRememberId
        entry_id := entry.id
        content := (item.getD "content" (.str "")).asStr
        category := category
        tags := if tags_str = "" then none else some tags_str }
    let db2 : DB :=
      { db with entries := db.entries ++ [entry],
                rememberItems := db.rememberItems ++ [remember],
                nextEntryId := db.nextEntryId + 1,
                nextRememberId := db.nextRememberId + 1 }
    let existing2 := if existing.contains category then existing else existing ++ [category]
    let out := rememberLoop ctx rest db2 existing2
    (out.1, remember :: out.2)

/-- Embedding of `handle_remember` (remember.py). -/
def handle_remember (db : DB) (user : Nat) (raw_input : String)
    (intent_data : Json) (input_type : String)
    (image_description : Option String) : DB × HandlerResult :=
  let data := intent_data.getD "data" (.obj [])
  let items_data := data.getD "items" (.arr [])
  let items_list : List Json :=
    if !items_data.truthy && (data.getD "content" .null).truthy then
      [.obj [("content", data.getD "content" .null),
             ("category", data.getD "category" (.str "General")),
             ("tags", data.getD "tags" (.arr []))]]
    else items_data.asList
  let ctx : RememberCtx :=
    { user := user, raw_input := raw_input, input_type := input_type,
      image_description := image_description }
  let out := rememberLoop ctx items_list db (db.userRememberCategories user)
  let created := out.2
  let response :=
    match created with
    | [r] => "Noted under " ++ r.category ++ ": " ++ r.content.take 60
    | _ => "Saved " ++ toString created.length ++ " items under "
        ++ String.intercalate ", " (pySorted ((created.map (fun r => r.category)).dedup)) ++ "."
  (out.1,
   { spoken_response := spokenOverride intent_data response
     entry_id := ((out.2.head?).map (fun r => r.entry_id)).getD 0
     module := "remember" })

/-- The request-scoped context of `handle_journal`. -/
structure JournalCtx where
  now : Nat
  user : Nat
  raw_input : String
  input_type : String
  image_description : Option String

/-- One iteration of the `for activity in activities` loop of
`handle_journal`: resolve the topic (only when truthy) against the evolving
known-topic list, insert the Entry row, then insert the JournalEntry row
dated now. -/
def journalLoop (ctx : JournalCtx) :
    List Json → DB → List String → DB × List JournalRow
  | [], db, _ => (db, [])
  | activity :: rest, db, existing =>
    let topicVal := activity.getD "topic" .null
    let topic : Option String :=
      match topicVal with
      | .null => none
      | v => some (if v.truthy then resolveLabel existing v.asStr else v.asStr)
    let entry : EntryRow :=
      { id := db.nextEntryId
        user_id := ctx.user
        input_type := ctx.input_type
        raw_transcript := if ctx.input_type != "image" then some ctx.raw_input else none
        raw_image_description := ctx.image_description
        processed_content := (activity.getD "content" (.str "")).asStr
        title := ((activity.getD "content" (.str "Journal")).asStr).take 80
        module := "journal"
        module_data := some activity }
    let journal : JournalRow :=
      { id := db.nextJournalId
        entry_id := entry.id
        content := (activity.getD "content" (.str "")).asStr
        activity_type := (activity.getD "activity_type" (.str "general")).asStr
        topic := topic
        date := ctx.now }
    let db2 : DB :=
      { db with entries := db.entries ++ [entry],
                journalEntries := db.journalEntries ++ [journal],
                nextEntryId := db.nextEntryId + 1,
                nextJournalId := db.nextJournalId + 1 }
    let existing2 :=
      match topic with
      | some tp => if topicVal.truthy && !existing.contains tp then existing ++ [tp] else existing
      | none => existing
    let out := journalLoop ctx rest db2 existing2
    (out.1, journal :: out.2)

/-- Embedding of `handle_journal` (journal.py). -/
def handle_journal (now : Nat) (db : DB) (user : Nat) (raw_input : String)
    (intent_data : Json) (input_type : String)
    (image_description : Option String) : DB × HandlerResult :=
  let data := intent_data.getD "data" (.obj [])
  let activities := data.getD "activities" (.arr [])
  let activities_list : List Json :=
    if !activities.truthy && (data.getD "content" .null).truthy then
      [.obj [("content", data.getD "content" .null),
             ("activity_type", data.getD "activity_type" (.str "general")),
             ("topic", data.getD "topic" .null)]]
    else activities.asList
  let ctx : JournalCtx :=
    { now := now, user := user, raw_input := raw_input,
      input_type := input_type, image_description := image_description }
  let out := journalLoop ctx activities_list db (db.userJournalTopics user)
  let created := out.2
  let response :=
    match created with
    | [j] =>
      let topic_str :=
        match j.topic with
        | some tp => if tp != "" then " [" ++ tp ++ "]" else ""
        | none => ""
      "Logged: " ++ j.content.take 60 ++ topic_str
    | _ => "Logged " ++ toString created.length ++ " activities for today."
  (out.1,
   { spoken_response := spokenOverride intent_data response
     entry_id := ((out.2.head?).map (fun j => j.entry_id)).getD 0
     module := "journal" })

/-- The action descriptions one intent contributes to `actions_done` in
`auto_complete_tasks` (input.py): task intents are skipped, journal activity
contents are taken verbatim, food/calendar/gym/expense intents get their
fixed phrasings, mood/remember/diary are explicitly skipped, and any other
module contributes its truthy `content`. -/
def deriveAction (intent : Json) : List String :=
  let module := (intent.getD "module" (.str "")).asStr
  let data := intent.getD "data" (.obj [])
  if module = "task" then []
  else if module = "journal" then
    ((data.getD "activities" (.arr [])).asList).map
      (fun act => (act.getD "content" (.str "")).asStr)
  else if module = "food" then
    let items := data.getD "items" (.arr [])
    if items.truthy then
      [match items with
       | .arr xs => "Ate " ++ String.intercalate ", " (xs.map Json.asStr)
       | other => "Ate " ++ other.pyStr]
    else []
  else if module = "calendar" then
    ["Scheduled " ++ (data.getD "title" (.str "")).pyStr]
  else if module = "gym" then
    let exercises := data.getD "exercises" (.arr [])
    if exercises.truthy then
      ["Did gym: " ++ String.intercalate ", "
        ((exercises.asList).map (fun e => (e.getD "name" (.str "")).asStr))]
    else ["Went to the gym"]
  else if module = "expense" then
    ["Spent money at " ++ (data.getD "vendor" (.str "somewhere")).pyStr]
  else if module = "mood" || module = "remember" || module = "diary" then []
  else
    let content := data.getD "content" (.str "")
    if content.truthy then [content.asStr] else []

/-- The full `actions_done` list accumulated over the batch. -/
def deriveActions (intents : List Json) : List String :=
  (intents.map deriveAction).flatten

/-- Embedding of `auto_complete_tasks` (input.py): with no open tasks or no
derived actions it returns without consulting the matcher; the matching call
and the parse of its response sit inside a catch-all `except`, so a call
failure, a parse failure, or a non-object response all yield no matches; open
tasks of the user whose id occurs in `matched_ids` flip to `done` with
`completed_at = now`. Returns the updated database and the completed rows. -/
def auto_complete_tasks (now : Nat) (db : DB) (user : Nat)
    (intents : List Json) (matcherOutcome : Except Unit (Option Json)) :
    DB × List TaskRow :=
  if (db.openTasks user).isEmpty then (db, [])
  else if (deriveActions intents).isEmpty then (db, [])
  else
    match matcherOutcome with
    | .error _ => (db, [])
    | .ok none => (db, [])
    | .ok (some (.obj fields)) =>
      let ids := (List.lookup "matched_ids" fields).getD (.arr [])
      ({ db with tasks := completeApply now user db ids },
       completeMatched now db user ids)
    | .ok (some _) => (db, [])

/-- The handler a module tag resolves to (input.py `MODULE_HANDLERS`). -/
inductive HandlerTag where
  | memoH
  | calendarH
  | taskH
  | rememberH
  | journalH
deriving DecidableEq, Repr

/-- The fixed dispatch table of input.py. -/
def MODULE_HANDLERS : List (String × HandlerTag) :=
  [("memo", .memoH), ("diary", .memoH), ("screenshot_note", .memoH),
   ("expense", .memoH), ("food", .memoH), ("mood", .memoH), ("idea", .memoH),
   ("gym", .memoH), ("work", .memoH), ("calendar", .calendarH),
   ("task", .taskH), ("remember", .rememberH), ("journal", .journalH)]

/-- Dispatch resolution: `MODULE_HANDLERS.get(module_name, handle_memo)`. -/
def resolveHandler (module : String) : HandlerTag :=
  (MODULE_HANDLERS.lookup module).getD .memoH

/-- The per-request accumulation of `process_input`: the confirmation strings
gathered so far and the first successful entry id. -/
structure BatchState where
  responses : List String
  first_entry_id : Option Nat
deriving DecidableEq, Repr

/-- The `for i, intent_data in enumerate(intents)` loop of `process_input`.
`run` models executing the resolved handler on an intent (`Except.error e`
is a raised exception rendered as Python renders it in the f-string); the
`try/except` around the handler call converts a failure into the
"Error processing <module>: <reason>" confirmation and continues with the
remaining intents. Recursion from the head reproduces the source's sequential
accumulation: confirmations in intent order, first successful entry id kept. -/
def processIntentsLoop (run : HandlerTag → Json → Except String HandlerResult) :
    List Json → BatchState
  | [] => { responses := [], first_entry_id := none }
  | intent_data :: rest =>
    let module_name := (intent_data.getD "module" (.str "memo")).asStr
    let st := processIntentsLoop run rest
    match run (resolveHandler module_name) intent_data with
    | .ok r =>
      { responses := r.spoken_response :: st.responses
        first_entry_id := some r.entry_id <|> st.first_entry_id }
    | .error e =>
      { responses := ("Error processing " ++ module_name ++ ": " ++ e) :: st.responses
        first_entry_id := st.first_entry_id }

/-- The post-processing append in `process_input`: one aggregate sentence when
auto-completion closed anything, nothing otherwise. -/
def appendAutoCompleteResponse (responses : List String)
    (completed : List TaskRow) : List String :=
  match completed with
  | [] => responses
  | _ => responses ++ ["Also marked as done: "
      ++ String.intercalate ", " (completed.map (fun t => t.description)) ++ "."]

/-- A one-open-task database used to instantiate the completion theorems. -/
def sampleDB : DB :=
  { entries := [{ id := 1
                  user_id := 1
                  input_type := "text"
                  raw_transcript := some "buy milk"
                  raw_image_description := none
                  processed_content := "buy milk"
                  title := "buy milk"
                  module := "task"
                  module_data := none }]
    tasks := [{ id := 1
                entry_id := 1
                description := "buy milk"
                group := "Errands"
                priority := "this_week"
                due_date := none
                status := "open"
                completed_at := none }]
    rememberItems := []
    journalEntries := []
    nextEntryId := 2
    nextTaskId := 2
    nextRememberId := 1
    nextJournalId := 1 }

/-- The Task invariant of spec section 3: `completed_at` is set iff
`status = done`. -/
def TaskRow.statusInv (t : TaskRow) : Prop :=
  t.completed_at ≠ none ↔ t.status = "done"

/-- The invariant over every row of the task table. -/
def DB.tasksInv (db : DB) : Prop :=
  ∀ t ∈ db.tasks, t.statusInv

/-- A one-task task-create payload specifying a description and a group, as
the classifier produces for the C4 scenario. -/
def taskSpec (desc c : String) : Json :=
  .obj [("description", .str desc), ("group", .str c)]

/-- The corresponding intent. -/
def taskCreateIntent (desc c : String) : Json :=
  .obj [("data", .obj [("tasks", .arr [taskSpec desc c])])]

/-- The create-context `_create_tasks` builds for such an intent. -/
def taskCreateCtx (parseIso : String → Option Nat) (user : Nat)
    (raw input_type : String) (imgdesc : Option String) : CreateCtx :=
  { parseIso := parseIso, user := user, raw_input := raw,
    input_type := input_type, image_description := imgdesc,
    default_group := .str "General", default_priority := .str "keep_in_mind" }

/-! ## Claim theorems -/

/-- C1 (amended): when the gateway raw text fails to parse as JSON at all
(`json.loads` raises), the Intent Parser does not raise: it returns exactly a
one-element list containing a generic-memo intent whose payload content field
equals the original raw transcript, or the placeholder string when the
transcript is absent or empty. (As stated the claim also covered responses
that parse as JSON of an unexpected shape; those are passed through or
wrapped instead — see the counterexample.) -/
theorem C1_parse_failure_memo_fallback (transcript : Option String)
    (hasImage : Bool) (hcalled : strTruthy transcript || hasImage = true) :
    classify_intent transcript hasImage none = .arr [memoFallback transcript] ∧
    (memoFallback transcript).lookup "module" = some (.str "memo") ∧
    ((memoFallback transcript).getD "data" .null).lookup "content" =
      some (.str (transcriptOr transcript "Image processed")) ∧
    (∀ s, transcript = some s → s ≠ "" →
      transcriptOr transcript "Image processed" = s) ∧
    (transcript = none → transcriptOr transcript "Image processed" = "Image processed") := by
  refine ⟨?_, rfl, rfl, ?_, ?_⟩
  · unfold classify_intent
    cases htr : strTruthy transcript <;> cases hasImage <;> simp_all
  · intro s hs hne
    subst hs
    simp [transcriptOr, hne]
  · intro hs
    subst hs
    rfl

/-- C1 witness: a concrete malformed gateway response with a present
transcript yields exactly the memo fallback. -/
theorem C1_parse_failure_memo_fallback_witness :
    classify_intent (some "hello world") false none =
      .arr [memoFallback (some "hello world")] :=
  (C1_parse_failure_memo_fallback (some "hello world") false (by decide)).1

/-- C1 counterexample: the raw text "42" parses as JSON but not as the
expected shape, yet classify_intent returns the wrapped scalar, not a
one-element list containing a generic-memo intent. -/
theorem C1_counterexample :
    classify_intent (some "hi") false (some (.num 42)) = .arr [.num 42] ∧
    (Json.num 42).lookup "module" = none ∧
    Json.arr [Json.num 42] ≠ Json.arr [memoFallback (some "hi")] := by
  refine ⟨rfl, rfl, ?_⟩
  intro h
  simp [memoFallback] at h

/-- C8 (amended): the Intent Parser's output list is non-empty on every
branch the parser itself builds (empty input, parse failure, legacy wrap);
an empty output can only be the verbatim pass-through of a gateway response
that itself supplies an empty intents array or an empty bare array. -/
theorem C8_nonempty_unless_gateway_empty (transcript : Option String)
    (hasImage : Bool) (parsed : Option Json)
    (h : classify_intent transcript hasImage parsed = .arr []) :
    parsed = some (.arr []) ∨
    ∃ fields, parsed = some (.obj fields) ∧
      fields.lookup "intents" = some (.arr []) := by
  unfold classify_intent at h
  split at h
  · simp at h
  · cases parsed with
    | none => simp at h
    | some r =>
      cases r with
      | arr xs => left; simp at h; rw [h]
      | obj fields =>
        right
        refine ⟨fields, rfl, ?_⟩
        simp only [Option.some.injEq] at h ⊢
        cases hl : List.lookup "intents" fields with
        | some v => rw [hl] at h; simp at h; rw [h]
        | none => rw [hl] at h; simp at h
      | null => simp at h
      | bool b => simp at h
      | num n => simp at h
      | str s => simp at h

/-- C8 witness: a gateway response that parses to an empty bare array is the
pass-through case of the amended claim. -/
theorem C8_nonempty_unless_gateway_empty_witness :
    some (Json.arr []) = some (Json.arr []) ∨
    ∃ fields, some (Json.arr []) = some (Json.obj fields) ∧
      fields.lookup "intents" = some (Json.arr []) :=
  C8_nonempty_unless_gateway_empty (some "hi") false (some (.arr [])) rfl

/-- C8 counterexample: a well-formed gateway response carrying an explicitly
empty intents array makes classify_intent return the empty list, refuting
"never empty". -/
theorem C8_counterexample :
    classify_intent (some "hi") false (some (.obj [("intents", .arr [])])) =
      .arr [] := rfl

/-! ## Lemmas about JSON access and the task-creation loop -/

theorem Json.getD_eq_of_lookup {j : Json} {k : String} {v : Json} (d : Json)
    (h : j.lookup k = some v) : j.getD k d = v := by
  simp [Json.getD, h]

theorem Json.getD_eq_default {j : Json} {k : String} (d : Json)
    (h : j.lookup k = none) : j.getD k d = d := by
  simp [Json.getD, h]

theorem createTasksLoop_tasks (ctx : CreateCtx) (specs : List Json) :
    ∀ (db : DB) (existing : List String),
      (createTasksLoop ctx specs db existing).1.tasks =
        db.tasks ++ (createTasksLoop ctx specs db existing).2 := by
  induction specs with
  | nil => intro db existing; simp [createTasksLoop]
  | cons spec rest ih =>
    intro db existing
    simp only [createTasksLoop]
    rw [ih]
    simp [createStepDB]

theorem createTasksLoop_entries (ctx : CreateCtx) (specs : List Json) :
    ∀ (db : DB) (existing : List String),
      ∃ newEntries, (createTasksLoop ctx specs db existing).1.entries =
        db.entries ++ newEntries ∧
        ∀ e ∈ newEntries, e.user_id = ctx.user ∧ db.nextEntryId ≤ e.id := by
  induction specs with
  | nil => intro db existing; exact ⟨[], by simp [createTasksLoop], by simp⟩
  | cons spec rest ih =>
    intro db existing
    simp only [createTasksLoop]
    obtain ⟨newEntries, heq, hprop⟩ :=
      ih (createStepDB ctx db existing spec)
        (stepExisting existing (createTaskRow ctx db existing spec).group)
    refine ⟨createEntryRow ctx db spec :: newEntries, ?_, ?_⟩
    · rw [heq]; simp [createStepDB]
    · intro e he
      rcases List.mem_cons.mp he with rfl | he2
      · exact ⟨rfl, Nat.le_refl _⟩
      · obtain ⟨h1, h2⟩ := hprop e he2
        refine ⟨h1, ?_⟩
        have : db.nextEntryId + 1 ≤ e.id := by simpa [createStepDB] using h2
        omega

theorem createTasksLoop_priorities (ctx : CreateCtx) (specs : List Json) :
    ∀ (db : DB) (existing : List String),
      (createTasksLoop ctx specs db existing).2.map (fun t => t.priority) =
        specs.map (fun spec => (spec.getD "priority" ctx.default_priority).asStr) := by
  induction specs with
  | nil => intro db existing; rfl
  | cons spec rest ih =>
    intro db existing
    simp only [createTasksLoop, List.map_cons]
    rw [ih]
    rfl

theorem createTasksLoop_created_open (ctx : CreateCtx) (specs : List Json) :
    ∀ (db : DB) (existing : List String),
      ∀ t ∈ (createTasksLoop ctx specs db existing).2,
        t.status = "open" ∧ t.completed_at = none := by
  induction specs with
  | nil => intro db existing t ht; simp [createTasksLoop] at ht
  | cons spec rest ih =>
    intro db existing t ht
    simp only [createTasksLoop, List.mem_cons] at ht
    rcases ht with ht | ht
    · subst ht; exact ⟨rfl, rfl⟩
    · exact ih _ _ t ht

/-- C2 counterexample: a task-create payload whose single task spec omits
`priority` (and carries no payload-level priority either) persists the task
with priority `keep_in_mind`, not `this_week`. -/
theorem C2_counterexample :
    ((_create_tasks (fun _ => none) DB.empty 1 "buy milk"
        (Json.obj [("data", Json.obj [("action", Json.str "create"),
          ("tasks", Json.arr [Json.obj [("description", Json.str "buy milk")]])])])
        "text" none).1.tasks.map (fun t => t.priority)) = ["keep_in_mind"] ∧
    ("keep_in_mind" : String) ≠ "this_week" := by
  constructor
  · rfl
  · decide

/-- C2 (amended): the persisted priority of each created task is the task
spec's own `priority` string taken verbatim (recognized or not); when the
spec omits it, the payload-level `priority` applies; when both are absent the
persisted priority defaults to `keep_in_mind` (not `this_week`). -/
theorem C2_priority_default (parseIso : String → Option Nat) (db : DB)
    (user : Nat) (raw : String) (intent_data : Json) (input_type : String)
    (imgdesc : Option String) (dataFields : List (String × Json))
    (specs : List Json)
    (hdata : intent_data.lookup "data" = some (.obj dataFields))
    (htasks : List.lookup "tasks" dataFields = some (.arr specs))
    (hne : specs ≠ []) :
    ((_create_tasks parseIso db user raw intent_data input_type imgdesc).1.tasks.drop
        db.tasks.length).map (fun t => t.priority) =
      specs.map (fun spec =>
        (spec.getD "priority"
          ((Json.obj dataFields).getD "priority" (.str "keep_in_mind"))).asStr) ∧
    (List.lookup "priority" dataFields = none →
      ∀ (i : Nat) (spec : Json), specs[i]? = some spec → spec.lookup "priority" = none →
        (((_create_tasks parseIso db user raw intent_data input_type imgdesc).1.tasks.drop
            db.tasks.length).map (fun t => t.priority))[i]? = some "keep_in_mind") := by
  have hdata2 : intent_data.getD "data" (.obj []) = .obj dataFields :=
    Json.getD_eq_of_lookup _ hdata
  have htasks2 : (Json.obj dataFields).getD "tasks" (.arr []) = .arr specs :=
    Json.getD_eq_of_lookup _ htasks
  have htruthy : (Json.arr specs).truthy = true := by
    cases specs with
    | nil => exact absurd rfl hne
    | cons a l => rfl
  have hmain :
      ((_create_tasks parseIso db user raw intent_data input_type imgdesc).1.tasks.drop
          db.tasks.length).map (fun t => t.priority) =
        specs.map (fun spec =>
          (spec.getD "priority"
            ((Json.obj dataFields).getD "priority" (.str "keep_in_mind"))).asStr) := by
    simp only [_create_tasks, hdata2, htasks2, htruthy, Bool.not_true,
      Bool.false_and, Bool.false_eq_true, if_false, Json.asList]
    rw [createTasksLoop_tasks]
    rw [List.drop_left]
    rw [createTasksLoop_priorities]
  refine ⟨hmain, ?_⟩
  intro hnone i spec hi hspec
  rw [hmain]
  have hinner : (Json.obj dataFields).getD "priority" (.str "keep_in_mind") =
      .str "keep_in_mind" := Json.getD_eq_default _ hnone
  simp only [List.getElem?_map, hi, Option.map_some']
  rw [hinner, Json.getD_eq_default _ hspec]
  rfl

/-- C2 witness: a concrete payload with one empty task spec and no
payload-level priority persists a `keep_in_mind` task. -/
theorem C2_priority_default_witness :
    (((_create_tasks (fun _ => none) DB.empty 1 "r"
        (Json.obj [("data", Json.obj [("tasks", Json.arr [Json.obj []])])])
        "text" none).1.tasks.drop DB.empty.tasks.length).map
      (fun t => t.priority))[0]? = some "keep_in_mind" :=
  (C2_priority_default (fun _ => none) DB.empty 1 "r"
      (Json.obj [("data", Json.obj [("tasks", Json.arr [Json.obj []])])])
      "text" none [("tasks", Json.arr [Json.obj []])] [Json.obj []]
      rfl rfl (by simp)).2 rfl 0 (Json.obj []) rfl rfl

/-! ## Lemmas about the completion path -/

theorem map_id_of_mem {α : Type} {l : List α} {f : α → α}
    (h : ∀ x ∈ l, f x = x) : l.map f = l := by
  induction l with
  | nil => rfl
  | cons a t ih =>
    simp only [List.map_cons]
    rw [h a (by simp), ih (fun x hx => h x (by simp [hx]))]

/-- Shape of a successful `_complete_tasks` run with no open tasks: the task
table is untouched, one attempt Entry is inserted, and the computed
confirmation is the could-not-find string. -/
theorem _complete_tasks_no_open (now : Nat) (db : DB) (user : Nat)
    (raw : String) (intent : Json) (input_type : String)
    (mOut : Except Unit (Option Json)) (h : db.openTasks user = []) :
    _complete_tasks now db user raw intent input_type mOut =
      .ok ({ db with
              tasks := db.tasks
              entries := db.entries ++ [completionEntry db user raw input_type []]
              nextEntryId := db.nextEntryId + 1 },
           { spoken_response := spokenOverride intent couldNotFindMsg
             entry_id := db.nextEntryId
             module := "task" }) := by
  have hemp : (db.openTasks user).isEmpty = true := by rw [h]; rfl
  simp only [_complete_tasks, hemp, if_true]
  rfl

/-- Shape of `_complete_tasks` when open tasks exist and the matcher produced
a decoded `matched_ids` value. -/
theorem _complete_tasks_with_ids (now : Nat) (db : DB) (user : Nat)
    (raw : String) (intent : Json) (input_type : String)
    (mOut : Except Unit (Option Json)) (ids : Json)
    (hne : (db.openTasks user).isEmpty = false)
    (hm : _match_tasks_with_llm mOut = .ok ids)
    (hids : inRaises ids = false) :
    _complete_tasks now db user raw intent input_type mOut =
      .ok ({ db with
              tasks := completeApply now user db ids
              entries := db.entries ++
                [completionEntry db user raw input_type (completeMatched now db user ids)]
              nextEntryId := db.nextEntryId + 1 },
           { spoken_response :=
               spokenOverride intent (completionResponse (completeMatched now db user ids))
             entry_id := db.nextEntryId
             module := "task" }) := by
  simp only [_complete_tasks, hne, Bool.false_eq_true, if_false, hm, hids]

/-- `_complete_tasks` raises (Python `TypeError`) when open tasks exist and
the decoded `matched_ids` value is not a list or dict. -/
theorem _complete_tasks_in_raises (now : Nat) (db : DB) (user : Nat)
    (raw : String) (intent : Json) (input_type : String)
    (mOut : Except Unit (Option Json)) (ids : Json)
    (hne : (db.openTasks user).isEmpty = false)
    (hm : _match_tasks_with_llm mOut = .ok ids)
    (hids : inRaises ids = true) :
    _complete_tasks now db user raw intent input_type mOut = .error () := by
  simp only [_complete_tasks, hne, Bool.false_eq_true, if_false, hm, hids, if_true]

/-- `_complete_tasks` propagates a matcher exception. -/
theorem _complete_tasks_raises (now : Nat) (db : DB) (user : Nat)
    (raw : String) (intent : Json) (input_type : String)
    (mOut : Except Unit (Option Json)) (e : Unit)
    (hne : (db.openTasks user).isEmpty = false)
    (hm : _match_tasks_with_llm mOut = .error e) :
    _complete_tasks now db user raw intent input_type mOut = .error e := by
  simp only [_complete_tasks, hne, Bool.false_eq_true, if_false, hm]

/-- Every successful `_complete_tasks` run leaves the task table either
untouched or equal to a `completeApply` mutation. -/
theorem _complete_tasks_tasks_shape (now : Nat) (db : DB) (user : Nat)
    (raw : String) (intent : Json) (input_type : String)
    (mOut : Except Unit (Option Json)) (db2 : DB) (res : HandlerResult)
    (hok : _complete_tasks now db user raw intent input_type mOut = .ok (db2, res)) :
    db2.tasks = db.tasks ∨ ∃ ids : Json, db2.tasks = completeApply now user db ids := by
  cases hemp : (db.openTasks user).isEmpty with
  | true =>
    have h0 : db.openTasks user = [] := by
      cases h2 : db.openTasks user with
      | nil => rfl
      | cons a l => rw [h2] at hemp; simp [List.isEmpty] at hemp
    rw [_complete_tasks_no_open now db user raw intent input_type mOut h0] at hok
    simp only [Except.ok.injEq, Prod.mk.injEq] at hok
    left
    rw [← hok.1]
  | false =>
    cases mOut with
    | error e =>
      rw [_complete_tasks_raises now db user raw intent input_type (.error e) e hemp rfl] at hok
      cases hok
    | ok o =>
      cases o with
      | none =>
        rw [_complete_tasks_with_ids now db user raw intent input_type (.ok none)
          (.arr []) hemp rfl rfl] at hok
        simp only [Except.ok.injEq, Prod.mk.injEq] at hok
        exact Or.inr ⟨.arr [], by rw [← hok.1]⟩
      | some j =>
        cases j with
        | obj fields =>
          cases hir : inRaises ((List.lookup "matched_ids" fields).getD (.arr [])) with
          | true =>
            rw [_complete_tasks_in_raises now db user raw intent input_type
              (.ok (some (.obj fields)))
              ((List.lookup "matched_ids" fields).getD (.arr [])) hemp rfl hir] at hok
            cases hok
          | false =>
            rw [_complete_tasks_with_ids now db user raw intent input_type
              (.ok (some (.obj fields)))
              ((List.lookup "matched_ids" fields).getD (.arr [])) hemp rfl hir] at hok
            simp only [Except.ok.injEq, Prod.mk.injEq] at hok
            exact Or.inr ⟨_, by rw [← hok.1]⟩
        | null =>
          rw [_complete_tasks_raises now db user raw intent input_type (.ok (some .null))
            () hemp rfl] at hok
          cases hok
        | bool b =>
          rw [_complete_tasks_raises now db user raw intent input_type (.ok (some (.bool b)))
            () hemp rfl] at hok
          cases hok
        | num n =>
          rw [_complete_tasks_raises now db user raw intent input_type (.ok (some (.num n)))
            () hemp rfl] at hok
          cases hok
        | str s =>
          rw [_complete_tasks_raises now db user raw intent input_type (.ok (some (.str s)))
            () hemp rfl] at hok
          cases hok
        | arr xs =>
          rw [_complete_tasks_raises now db user raw intent input_type (.ok (some (.arr xs)))
            () hemp rfl] at hok
          cases hok

/-- When nothing in the open-task list matches, the mutation loop is the
identity on the task table. -/
theorem completeApply_eq_self (now user : Nat) (db : DB) (ids : Json)
    (h : (db.openTasks user).filter (fun t => idMatched ids t.id) = []) :
    completeApply now user db ids = db.tasks := by
  apply map_id_of_mem
  intro t ht
  by_cases hcond : (t.status == "open" && db.entryUser t.entry_id == some user
      && idMatched ids t.id) = true
  · exfalso
    simp only [Bool.and_eq_true] at hcond
    obtain ⟨⟨ha, hb⟩, h2⟩ := hcond
    have h1 : (t.status == "open" && db.entryUser t.entry_id == some user) = true := by
      rw [ha, hb]; rfl
    have hmem : t ∈ db.openTasks user := List.mem_filter.mpr ⟨ht, h1⟩
    have : t ∈ (db.openTasks user).filter (fun t => idMatched ids t.id) :=
      List.mem_filter.mpr ⟨hmem, h2⟩
    rw [h] at this
    cases this
  · simp [hcond]

theorem filter_eq_nil_of {α : Type} {l : List α} {p : α → Bool}
    (h : ∀ x ∈ l, p x = false) : l.filter p = [] := by
  induction l with
  | nil => rfl
  | cons a t ih =>
    rw [List.filter_cons, h a (by simp)]
    exact ih (fun x hx => h x (by simp [hx]))

theorem isEmpty_false_of {l : List TaskRow} (h : l.isEmpty = true) : l = [] := by
  cases l with
  | nil => rfl
  | cons a t => simp [List.isEmpty] at h

/-- C6 (amended): the completion flow acts only on task identifiers present
in the supplied open-task list — every task row either stays exactly as it
was, or was an open task of this user and flips to done — and a matcher
response that fails to parse as JSON yields an empty match list; however a
failure of the classification call itself propagates as an exception out of
the matching step (caught only at the dispatch boundary), rather than
returning an empty list as the claim states. -/
theorem C6_matcher_containment (now : Nat) (db : DB) (user : Nat)
    (raw : String) (intent : Json) (input_type : String)
    (mOut : Except Unit (Option Json)) :
    _match_tasks_with_llm (.ok none) = .ok (.arr []) ∧
    (∀ e, _match_tasks_with_llm (.error e) = .error e) ∧
    (∀ (db2 : DB) (res : HandlerResult),
      _complete_tasks now db user raw intent input_type mOut = .ok (db2, res) →
      db2.tasks.length = db.tasks.length ∧
      ∀ (i : Nat) (t : TaskRow), db.tasks[i]? = some t →
        db2.tasks[i]? = some t ∨
        (t.status = "open" ∧ db.entryUser t.entry_id = some user ∧
          db2.tasks[i]? = some { t with status := "done", completed_at := some now })) := by
  refine ⟨rfl, fun e => rfl, ?_⟩
  intro db2 res hok
  rcases _complete_tasks_tasks_shape now db user raw intent input_type mOut db2 res hok with
    hsame | ⟨ids, happly⟩
  · rw [hsame]
    exact ⟨rfl, fun i t hit => Or.inl hit⟩
  · rw [happly]
    refine ⟨by simp [completeApply], ?_⟩
    intro i t hit
    rw [completeApply, List.getElem?_map, hit]
    simp only [Option.map_some']
    by_cases hcond : (t.status == "open" && db.entryUser t.entry_id == some user
        && idMatched ids t.id) = true
    · right
      have hcond2 := hcond
      simp only [Bool.and_eq_true] at hcond2
      obtain ⟨⟨ha, hb⟩, hc⟩ := hcond2
      refine ⟨by simpa using ha, by simpa using hb, ?_⟩
      rw [if_pos hcond]
    · left
      rw [if_neg hcond]

/-- C6 counterexample: on a failed classification call the matching step does
not return an empty match list — it re-raises the failure. -/
theorem C6_counterexample :
    _match_tasks_with_llm (Except.error ()) = Except.error () ∧
    _match_tasks_with_llm (Except.error ()) ≠ Except.ok (Json.arr []) := by
  refine ⟨rfl, ?_⟩
  intro h
  cases h

/-- C6 witness: completing against a one-open-task database with an
unparseable matcher response leaves the task table the same length. -/
theorem C6_matcher_containment_witness :
    (completeApply 5 1 sampleDB (Json.arr [])).length = sampleDB.tasks.length :=
  (((C6_matcher_containment 5 sampleDB 1 "r" (Json.obj []) "text"
      (.ok none)).2.2)
    ({ sampleDB with
        tasks := completeApply 5 1 sampleDB (Json.arr [])
        entries := sampleDB.entries ++
          [completionEntry sampleDB 1 "r" "text" (completeMatched 5 sampleDB 1 (Json.arr []))]
        nextEntryId := sampleDB.nextEntryId + 1 })
    ({ spoken_response :=
         spokenOverride (Json.obj []) (completionResponse (completeMatched 5 sampleDB 1 (Json.arr [])))
       entry_id := sampleDB.nextEntryId
       module := "task" })
    (_complete_tasks_with_ids 5 sampleDB 1 "r" (Json.obj []) "text"
      (.ok none) (.arr []) (by rfl) (by rfl) (by rfl))).1

/-- C5 (amended): completing with zero open tasks (or with a matcher outcome
yielding no matches: an unparseable response, or a decoded `matched_ids`
value that `in` accepts — a list or dict — matching nothing) leaves every
Task row untouched, persists exactly one Entry describing the completion
attempt, and confirms with the could-not-find string — unless the intent
supplies its own `spoken_response`, which takes precedence; in either case no
exception escapes. (A `matched_ids` value `in` cannot be applied to, such as
null, instead raises `TypeError` out of the handler when open tasks exist;
that path is excluded here and modelled by `_complete_tasks_in_raises`.) -/
theorem C5_zero_open_completion (now : Nat) (db : DB) (user : Nat)
    (raw : String) (intent : Json) (input_type : String)
    (mOut : Except Unit (Option Json))
    (h : db.openTasks user = [] ∨ mOut = .ok none ∨
      ∃ fields, mOut = .ok (some (.obj fields)) ∧
        inRaises ((List.lookup "matched_ids" fields).getD (.arr [])) = false ∧
        (db.openTasks user).filter (fun t =>
          idMatched ((List.lookup "matched_ids" fields).getD (.arr [])) t.id) = []) :
    _complete_tasks now db user raw intent input_type mOut =
      .ok ({ db with
              tasks := db.tasks
              entries := db.entries ++ [completionEntry db user raw input_type []]
              nextEntryId := db.nextEntryId + 1 },
           { spoken_response := spokenOverride intent couldNotFindMsg
             entry_id := db.nextEntryId
             module := "task" }) ∧
    (completionEntry db user raw input_type []).module = "task" ∧
    (completionEntry db user raw input_type []).processed_content =
      "Completed 0 task(s)" ∧
    (intent.lookup "spoken_response" = none →
      spokenOverride intent couldNotFindMsg = couldNotFindMsg) := by
  refine ⟨?_, rfl, rfl, ?_⟩
  · rcases h with h | h | ⟨fields, hm, hids, hfilter⟩
    · exact _complete_tasks_no_open now db user raw intent input_type mOut h
    · cases hemp : (db.openTasks user).isEmpty with
      | true =>
        exact _complete_tasks_no_open now db user raw intent input_type mOut
          (isEmpty_false_of hemp)
      | false =>
        subst h
        rw [_complete_tasks_with_ids now db user raw intent input_type (.ok none)
          (.arr []) hemp rfl rfl]
        have hfilter0 : (db.openTasks user).filter
            (fun t => idMatched (.arr []) t.id) = [] :=
          filter_eq_nil_of (fun t _ => rfl)
        have hcm : completeMatched now db user (.arr []) = [] := by
          rw [completeMatched, hfilter0]
          rfl
        rw [completeApply_eq_self now user db _ hfilter0, hcm]
        rfl
    · cases hemp : (db.openTasks user).isEmpty with
      | true =>
        exact _complete_tasks_no_open now db user raw intent input_type mOut
          (isEmpty_false_of hemp)
      | false =>
        subst hm
        rw [_complete_tasks_with_ids now db user raw intent input_type
          (.ok (some (.obj fields)))
          ((List.lookup "matched_ids" fields).getD (.arr [])) hemp rfl hids]
        have hcm : completeMatched now db user
            ((List.lookup "matched_ids" fields).getD (.arr [])) = [] := by
          rw [completeMatched, hfilter]
          rfl
        rw [completeApply_eq_self now user db _ hfilter, hcm]
        rfl
  · intro hnone
    rw [spokenOverride, Json.getD_eq_default _ hnone]
    rfl

/-- C5 counterexample: with zero open tasks, an intent that supplies its own
`spoken_response` gets that string back, not the could-not-find string the
claim requires. -/
theorem C5_counterexample :
    (match _complete_tasks 0 DB.empty 1 "done it"
        (Json.obj [("spoken_response", Json.str "All done!"),
          ("data", Json.obj [("action", Json.str "complete")])])
        "text" (Except.ok none) with
     | .ok (_, res) => res.spoken_response
     | .error _ => "raised") = "All done!" ∧
    ("All done!" : String) ≠ couldNotFindMsg := by
  refine ⟨rfl, ?_⟩
  decide

/-- C5 witness: the empty database has zero open tasks; even with a failing
matcher outcome the handler succeeds, mutates nothing, records the attempt
and confirms with the could-not-find string. -/
theorem C5_zero_open_completion_witness :
    _complete_tasks 3 DB.empty 1 "x" (Json.obj []) "text" (Except.error ()) =
      .ok ({ DB.empty with
              tasks := DB.empty.tasks
              entries := DB.empty.entries ++ [completionEntry DB.empty 1 "x" "text" []]
              nextEntryId := DB.empty.nextEntryId + 1 },
           { spoken_response := spokenOverride (Json.obj []) couldNotFindMsg
             entry_id := DB.empty.nextEntryId
             module := "task" }) :=
  (C5_zero_open_completion 3 DB.empty 1 "x" (Json.obj []) "text" (.error ())
    (Or.inl rfl)).1

theorem completeApply_inv (now user : Nat) (db : DB) (ids : Json)
    (hinv : db.tasksInv) :
    ∀ t ∈ completeApply now user db ids, t.statusInv := by
  intro t ht
  rw [completeApply] at ht
  rcases List.mem_map.mp ht with ⟨t0, ht0, heq⟩
  by_cases hcond : (t0.status == "open" && db.entryUser t0.entry_id == some user
      && idMatched ids t0.id) = true
  · rw [if_pos hcond] at heq
    rw [← heq]
    exact iff_of_true (by simp) rfl
  · rw [if_neg hcond] at heq
    rw [← heq]
    exact hinv t0 ht0

theorem _create_tasks_tasks_shape (parseIso : String → Option Nat) (db : DB)
    (user : Nat) (raw : String) (intent : Json) (input_type : String)
    (imgdesc : Option String) :
    ∃ created,
      (_create_tasks parseIso db user raw intent input_type imgdesc).1.tasks =
        db.tasks ++ created ∧
      ∀ t ∈ created, t.status = "open" ∧ t.completed_at = none := by
  simp only [_create_tasks]
  exact ⟨_, createTasksLoop_tasks _ _ _ _, createTasksLoop_created_open _ _ _ _⟩

theorem auto_complete_tasks_inv (now : Nat) (db : DB) (user : Nat)
    (intents : List Json) (mOut : Except Unit (Option Json))
    (hinv : db.tasksInv) :
    DB.tasksInv (auto_complete_tasks now db user intents mOut).1 := by
  rw [auto_complete_tasks.eq_def]
  split
  · exact hinv
  · split
    · exact hinv
    · split
      · exact hinv
      · exact hinv
      · exact fun t ht => completeApply_inv now user db _ hinv t ht
      · exact hinv

/-- C7: every pipeline operation on the task table (creation, explicit
completion, auto-completion) preserves the invariant that `completed_at` is
set iff `status = done`; creation only appends tasks in the `open` state with
`completed_at` unset, and both completion paths set `completed_at` exactly on
the rows they flip to `done`. -/
theorem C7_completed_iff_done (parseIso : String → Option Nat) (now : Nat)
    (db : DB) (user : Nat) (raw : String) (intent : Json) (input_type : String)
    (imgdesc : Option String) (mOut : Except Unit (Option Json))
    (intents : List Json) (hinv : db.tasksInv) :
    DB.tasksInv (_create_tasks parseIso db user raw intent input_type imgdesc).1 ∧
    (∀ t ∈ (_create_tasks parseIso db user raw intent input_type imgdesc).1.tasks,
      t ∈ db.tasks ∨ (t.status = "open" ∧ t.completed_at = none)) ∧
    (∀ (db2 : DB) (res : HandlerResult),
      _complete_tasks now db user raw intent input_type mOut = .ok (db2, res) →
      DB.tasksInv db2) ∧
    DB.tasksInv (auto_complete_tasks now db user intents mOut).1 := by
  obtain ⟨created, hcr, hop⟩ :=
    _create_tasks_tasks_shape parseIso db user raw intent input_type imgdesc
  refine ⟨?_, ?_, ?_, auto_complete_tasks_inv now db user intents mOut hinv⟩
  · intro t ht
    rw [hcr] at ht
    rcases List.mem_append.mp ht with h | h
    · exact hinv t h
    · obtain ⟨hs, hc⟩ := hop t h
      exact iff_of_false (by simp [hc]) (by rw [hs]; decide)
  · intro t ht
    rw [hcr] at ht
    rcases List.mem_append.mp ht with h | h
    · exact Or.inl h
    · exact Or.inr (hop t h)
  · intro db2 res hok
    rcases _complete_tasks_tasks_shape now db user raw intent input_type mOut
      db2 res hok with hsame | ⟨ids, happly⟩
    · intro t ht
      rw [hsame] at ht
      exact hinv t ht
    · intro t ht
      rw [happly] at ht
      exact completeApply_inv now user db ids hinv t ht

/-- C7 witness: the invariant holds after auto-completion on the empty
database. -/
theorem C7_completed_iff_done_witness :
    DB.tasksInv (auto_complete_tasks 0 DB.empty 1 [] (.ok none)).1 :=
  (C7_completed_iff_done (fun _ => none) 0 DB.empty 1 "r" (Json.obj []) "text"
    none (.ok none) [] (fun _t ht => nomatch ht)).2.2.2

/-! ## Lemmas for the taxonomy-reuse claim -/

theorem find?_eq_none_of {α : Type} {l : List α} {p : α → Bool}
    (h : ∀ x ∈ l, p x = false) : l.find? p = none := by
  induction l with
  | nil => rfl
  | cons a t ih =>
    simp only [List.find?, h a (by simp), cond_false]
    exact ih fun x hx => h x (by simp [hx])

theorem find?_append_of_none {α : Type} {l1 : List α} (l2 : List α)
    {p : α → Bool} (h : l1.find? p = none) :
    (l1 ++ l2).find? p = l2.find? p := by
  induction l1 with
  | nil => rfl
  | cons a t ih =>
    have hpa : p a = false := by
      cases hp : p a with
      | false => rfl
      | true => simp [List.find?, hp] at h
    simp only [List.find?, hpa, cond_false] at h
    simp only [List.cons_append, List.find?, hpa, cond_false]
    exact ih h

theorem find?_append_of_some {α : Type} {l1 : List α} (l2 : List α)
    {p : α → Bool} {a : α} (h : l1.find? p = some a) :
    (l1 ++ l2).find? p = some a := by
  induction l1 with
  | nil => cases h
  | cons x t ih =>
    cases hp : p x with
    | true =>
      simp only [List.find?, hp, cond_true] at h
      simp only [List.cons_append, List.find?, hp, cond_true]
      exact h
    | false =>
      simp only [List.find?, hp, cond_false] at h
      simp only [List.cons_append, List.find?, hp, cond_false]
      exact ih h

theorem find?_eq_some_of_unique {α : Type} {l : List α} {p : α → Bool} {b : α}
    (hmem : b ∈ l) (hpb : p b = true)
    (huniq : ∀ x ∈ l, p x = true → x = b) : l.find? p = some b := by
  induction l with
  | nil => cases hmem
  | cons a t ih =>
    cases hpa : p a with
    | true =>
      have hab : a = b := huniq a (by simp) hpa
      subst hab
      simp [List.find?, hpa]
    | false =>
      have hmem2 : b ∈ t := by
        rcases List.mem_cons.mp hmem with rfl | h2
        · rw [hpb] at hpa; cases hpa
        · exact h2
      simp only [List.find?, hpa, cond_false]
      exact ih hmem2 (fun x hx hpx => huniq x (by simp [hx]) hpx)

theorem mem_userTaskGroups_iff (db : DB) (user : Nat) (g : String) :
    g ∈ db.userTaskGroups user ↔
      g ≠ "" ∧ ∃ t, t ∈ db.tasks ∧
        db.entryUser t.entry_id = some user ∧ t.group = g := by
  constructor
  · intro h
    rw [DB.userTaskGroups] at h
    obtain ⟨h1, h2⟩ := List.mem_filter.mp h
    refine ⟨by simpa using h2, ?_⟩
    rw [List.mem_dedup] at h1
    obtain ⟨t, ht, hg⟩ := List.mem_map.mp h1
    obtain ⟨htasks, hown⟩ := List.mem_filter.mp ht
    exact ⟨t, htasks, by simpa using hown, hg⟩
  · intro ⟨hne, t, htasks, hown, hg⟩
    rw [DB.userTaskGroups]
    refine List.mem_filter.mpr ⟨?_, by simpa using hne⟩
    rw [List.mem_dedup]
    exact List.mem_map.mpr ⟨t, List.mem_filter.mpr ⟨htasks, by simpa using hown⟩, hg⟩

theorem _create_tasks_single_db (parseIso : String → Option Nat) (db : DB)
    (user : Nat) (raw input_type : String) (imgdesc : Option String)
    (desc c : String) :
    (_create_tasks parseIso db user raw (taskCreateIntent desc c) input_type imgdesc).1 =
      createStepDB (taskCreateCtx parseIso user raw input_type imgdesc) db
        (db.userTaskGroups user) (taskSpec desc c) := rfl

theorem createStepDB_entryUser_old (ctx : CreateCtx) (db : DB)
    (existing : List String) (td : Json) (eid : Nat)
    (hlt : eid < db.nextEntryId) :
    (createStepDB ctx db existing td).entryUser eid = db.entryUser eid := by
  show ((db.entries ++ [createEntryRow ctx db td]).find?
      (fun e => e.id == eid)).map (fun e => e.user_id) = _
  cases hfind : db.entries.find? (fun e => e.id == eid) with
  | some e => rw [find?_append_of_some _ hfind, DB.entryUser, hfind]
  | none =>
    rw [find?_append_of_none _ hfind, DB.entryUser, hfind]
    have : ((createEntryRow ctx db td).id == eid) = false := by
      simp [createEntryRow]
      omega
    simp [List.find?, this]

theorem createStepDB_entryUser_new (ctx : CreateCtx) (db : DB)
    (existing : List String) (td : Json) (hwf : db.WF) :
    (createStepDB ctx db existing td).entryUser db.nextEntryId = some ctx.user := by
  have hn : db.entries.find? (fun e => e.id == db.nextEntryId) = none :=
    find?_eq_none_of (fun e he => by
      have h2 := hwf.entry_ids e he
      simp
      omega)
  show ((db.entries ++ [createEntryRow ctx db td]).find?
      (fun e => e.id == db.nextEntryId)).map (fun e => e.user_id) = _
  rw [find?_append_of_none _ hn]
  simp [List.find?, createEntryRow]

theorem createStepDB_groups_last (ctx : CreateCtx) (dbx : DB)
    (ex : List String) (spec : Json) :
    ((createStepDB ctx dbx ex spec).tasks.map (fun t => t.group)).getLast? =
      some (createTaskRow ctx dbx ex spec).group := by
  show ((dbx.tasks ++ [createTaskRow ctx dbx ex spec]).map
    (fun t => t.group)).getLast? = _
  rw [List.map_append]
  simp [List.getLast?_concat]

/-- C4: taxonomy resolution is case-insensitive with the first match winning;
a novel candidate is returned unchanged and recorded, so a later task-create
intent in the same batch specifying the same group in different casing
persists a task with the exact same group string: two sequential one-task
creates with groups c1 then c2 (equal up to case, c1 novel) both persist rows
whose group is exactly c1. -/
theorem C4_taxonomy_reuse (parseIso : String → Option Nat) (db : DB)
    (user : Nat) (raw1 raw2 input_type : String) (imgdesc : Option String)
    (d1 d2 c1 c2 : String) (hwf : db.WF) (hcne : c1 ≠ "")
    (h12 : c1.toLower = c2.toLower)
    (hnovel : ∀ g ∈ db.userTaskGroups user, g.toLower ≠ c1.toLower) :
    (∀ (existing : List String) (cand : String),
      (∀ g ∈ existing, g.toLower ≠ cand.toLower) →
      resolveLabel existing cand = cand) ∧
    (∀ (pre : List String) (e : String) (post : List String) (cand : String),
      (∀ g ∈ pre, g.toLower ≠ cand.toLower) → e.toLower = cand.toLower →
      resolveLabel (pre ++ e :: post) cand = e) ∧
    ((_create_tasks parseIso db user raw1 (taskCreateIntent d1 c1) input_type
        imgdesc).1.tasks.map (fun t => t.group)).getLast? = some c1 ∧
    c1 ∈ (_create_tasks parseIso db user raw1 (taskCreateIntent d1 c1)
        input_type imgdesc).1.userTaskGroups user ∧
    ((_create_tasks parseIso
        (_create_tasks parseIso db user raw1 (taskCreateIntent d1 c1)
          input_type imgdesc).1
        user raw2 (taskCreateIntent d2 c2) input_type
        imgdesc).1.tasks.map (fun t => t.group)).getLast? = some c1 := by
  have hnovelRes : ∀ (existing : List String) (cand : String),
      (∀ g ∈ existing, g.toLower ≠ cand.toLower) →
      resolveLabel existing cand = cand := by
    intro existing cand hno
    have hfind : existing.find? (fun e => e.toLower == cand.toLower) = none :=
      find?_eq_none_of (fun x hx => beq_eq_false_iff_ne.mpr (hno x hx))
    rw [resolveLabel, hfind]
  have hfirstRes : ∀ (pre : List String) (e : String) (post : List String)
      (cand : String),
      (∀ g ∈ pre, g.toLower ≠ cand.toLower) → e.toLower = cand.toLower →
      resolveLabel (pre ++ e :: post) cand = e := by
    intro pre e post cand hpre he
    have hfind : (pre ++ e :: post).find?
        (fun x => x.toLower == cand.toLower) = some e := by
      rw [find?_append_of_none _
        (find?_eq_none_of fun x hx => beq_eq_false_iff_ne.mpr (hpre x hx))]
      simp [List.find?, he]
    rw [resolveLabel, hfind]
  refine ⟨hnovelRes, hfirstRes, ?_, ?_, ?_⟩
  all_goals
    rw [_create_tasks_single_db parseIso db user raw1 input_type imgdesc d1 c1]
  · rw [createStepDB_groups_last]
    have hrow1 : (createTaskRow (taskCreateCtx parseIso user raw1 input_type imgdesc)
        db (db.userTaskGroups user) (taskSpec d1 c1)).group =
        resolveLabel (db.userTaskGroups user) c1 := rfl
    rw [hrow1, hnovelRes _ _ hnovel]
  · rw [mem_userTaskGroups_iff]
    refine ⟨hcne,
      createTaskRow (taskCreateCtx parseIso user raw1 input_type imgdesc) db
        (db.userTaskGroups user) (taskSpec d1 c1), ?_, ?_, ?_⟩
    · show _ ∈ db.tasks ++ [_]
      simp
    · exact createStepDB_entryUser_new
        (taskCreateCtx parseIso user raw1 input_type imgdesc) db
        (db.userTaskGroups user) (taskSpec d1 c1) hwf
    · show resolveLabel (db.userTaskGroups user) c1 = c1
      exact hnovelRes _ _ hnovel
  · rw [_create_tasks_single_db]
    rw [createStepDB_groups_last]
    have hmem1 : c1 ∈ (createStepDB (taskCreateCtx parseIso user raw1 input_type
        imgdesc) db (db.userTaskGroups user) (taskSpec d1 c1)).userTaskGroups user := by
      rw [mem_userTaskGroups_iff]
      refine ⟨hcne,
        createTaskRow (taskCreateCtx parseIso user raw1 input_type imgdesc) db
          (db.userTaskGroups user) (taskSpec d1 c1), ?_, ?_, ?_⟩
      · show _ ∈ db.tasks ++ [_]
        simp
      · exact createStepDB_entryUser_new
          (taskCreateCtx parseIso user raw1 input_type imgdesc) db
          (db.userTaskGroups user) (taskSpec d1 c1) hwf
      · show resolveLabel (db.userTaskGroups user) c1 = c1
        exact hnovelRes _ _ hnovel
    have huniq1 : ∀ g ∈ (createStepDB (taskCreateCtx parseIso user raw1
        input_type imgdesc) db (db.userTaskGroups user)
        (taskSpec d1 c1)).userTaskGroups user,
        (fun x => x.toLower == c2.toLower) g = true → g = c1 := by
      intro g hg hbeq
      have hgl : g.toLower = c2.toLower := by simpa using hbeq
      rw [mem_userTaskGroups_iff] at hg
      obtain ⟨hgne, t, htasks, hown, hgrp⟩ := hg
      have htasks2 : t ∈ db.tasks ++
          [createTaskRow (taskCreateCtx parseIso user raw1 input_type imgdesc)
            db (db.userTaskGroups user) (taskSpec d1 c1)] := htasks
      rcases List.mem_append.mp htasks2 with hold | hnew
      · exfalso
        have hlt : t.entry_id < db.nextEntryId := hwf.task_entry_refs t hold
        have hown2 : db.entryUser t.entry_id = some user := by
          rw [← createStepDB_entryUser_old (taskCreateCtx parseIso user raw1
            input_type imgdesc) db (db.userTaskGroups user) (taskSpec d1 c1)
            t.entry_id hlt]
          exact hown
        have hmemdb : g ∈ db.userTaskGroups user :=
          (mem_userTaskGroups_iff db user g).mpr ⟨hgne, t, hold, hown2, hgrp⟩
        exact absurd (hgl.trans h12.symm) (hnovel g hmemdb)
      · have ht1 : t = createTaskRow (taskCreateCtx parseIso user raw1
            input_type imgdesc) db (db.userTaskGroups user) (taskSpec d1 c1) := by
          simpa using hnew
        rw [← hgrp, ht1]
        show resolveLabel (db.userTaskGroups user) c1 = c1
        exact hnovelRes _ _ hnovel
    have hfind2 : ((createStepDB (taskCreateCtx parseIso user raw1 input_type
        imgdesc) db (db.userTaskGroups user)
        (taskSpec d1 c1)).userTaskGroups user).find?
        (fun x => x.toLower == c2.toLower) = some c1 :=
      find?_eq_some_of_unique hmem1 (beq_iff_eq.mpr h12) huniq1
    have hrow2 : (createTaskRow (taskCreateCtx parseIso user raw2 input_type
        imgdesc) (createStepDB (taskCreateCtx parseIso user raw1 input_type
        imgdesc) db (db.userTaskGroups user) (taskSpec d1 c1))
        ((createStepDB (taskCreateCtx parseIso user raw1 input_type imgdesc) db
          (db.userTaskGroups user) (taskSpec d1 c1)).userTaskGroups user)
        (taskSpec d2 c2)).group =
        resolveLabel ((createStepDB (taskCreateCtx parseIso user raw1 input_type
          imgdesc) db (db.userTaskGroups user)
          (taskSpec d1 c1)).userTaskGroups user) c2 := rfl
    rw [hrow2, resolveLabel, hfind2]

theorem DB_empty_wf : DB.empty.WF := by
  refine ⟨?_, ?_, ?_⟩ <;> intro x hx <;> simp [DB.empty] at hx

/-- C4 witness: on an empty database, batching two creates with the novel
group "errands" persists a second task whose group is exactly the string the
first intent introduced. (Lean's kernel cannot evaluate `String.toLower` on
literals, so the witness instantiates both candidates with the same casing.) -/
theorem C4_taxonomy_reuse_witness :
    ((_create_tasks (fun _ => none)
        (_create_tasks (fun _ => none) DB.empty 1 "buy milk"
          (taskCreateIntent "t1" "errands") "text" none).1
        1 "buy soap" (taskCreateIntent "t2" "errands") "text"
        none).1.tasks.map (fun t => t.group)).getLast? = some "errands" :=
  (C4_taxonomy_reuse (fun _ => none) DB.empty 1 "buy milk" "buy soap" "text"
    none "t1" "t2" "errands" "errands" DB_empty_wf
    (by decide) rfl (fun _g hg => nomatch hg)).2.2.2.2

/-- C3: dispatch resolves the handler by pure lookup in the fixed table, with
unknown tags falling back to the generic store handler; an exception raised
inside a handler is converted at the dispatch boundary into the
"Error processing <module>: <reason>" confirmation, and every intent of the
batch still gets exactly one confirmation in order. -/
theorem C3_dispatch_isolation
    (run : HandlerTag → Json → Except String HandlerResult)
    (intents : List Json) :
    (∀ m, MODULE_HANDLERS.lookup m = none → resolveHandler m = HandlerTag.memoH) ∧
    (∀ m tag, MODULE_HANDLERS.lookup m = some tag → resolveHandler m = tag) ∧
    (processIntentsLoop run intents).responses = intents.map (fun intent =>
      match run (resolveHandler ((intent.getD "module" (Json.str "memo")).asStr))
          intent with
      | .ok r => r.spoken_response
      | .error e =>
        "Error processing " ++ (intent.getD "module" (Json.str "memo")).asStr
          ++ ": " ++ e) := by
  refine ⟨?_, ?_, ?_⟩
  · intro m hm
    rw [resolveHandler, hm]
    rfl
  · intro m tag hm
    rw [resolveHandler, hm]
    rfl
  · induction intents with
    | nil => rfl
    | cons intent rest ih =>
      simp only [processIntentsLoop, List.map_cons]
      cases hr : run (resolveHandler
          ((intent.getD "module" (Json.str "memo")).asStr)) intent with
      | ok r =>
        simp only [hr]
        rw [ih]
      | error e =>
        simp only [hr]
        rw [ih]

/-- C3 witness: a failing task handler yields the error confirmation while the
following unknown-tag intent still runs through the memo fallback handler. -/
theorem C3_dispatch_isolation_witness :
    resolveHandler "unknown_tag" = HandlerTag.memoH ∧
    resolveHandler "journal" = HandlerTag.journalH ∧
    (processIntentsLoop
      (fun tag _ => if tag = HandlerTag.taskH then Except.error "boom"
        else Except.ok ⟨"ok", 1, "memo"⟩)
      [Json.obj [("module", Json.str "task")],
       Json.obj [("module", Json.str "unknown_tag")]]).responses =
      ["Error processing task: boom", "ok"] := by
  have h := C3_dispatch_isolation
    (fun tag _ => if tag = HandlerTag.taskH then Except.error "boom"
      else Except.ok ⟨"ok", 1, "memo"⟩)
    [Json.obj [("module", Json.str "task")],
     Json.obj [("module", Json.str "unknown_tag")]]
  refine ⟨h.1 "unknown_tag" (by rfl), h.2.1 "journal" HandlerTag.journalH (by rfl), ?_⟩
  rw [h.2.2]
  rfl

/-! ## Lemmas for the auto-completion and spoken-response claims -/

theorem spokenOverride_of_str {intent : Json} {s : String} (computed : String)
    (hs : intent.lookup "spoken_response" = some (.str s)) :
    spokenOverride intent computed = s := by
  rw [spokenOverride, Json.getD_eq_of_lookup _ hs]
  rfl

theorem _complete_tasks_ok_spoken (now : Nat) (db : DB) (user : Nat)
    (raw : String) (intent : Json) (input_type : String)
    (mOut : Except Unit (Option Json)) (db2 : DB) (res : HandlerResult)
    (hok : _complete_tasks now db user raw intent input_type mOut = .ok (db2, res)) :
    ∃ matched, res.spoken_response =
      spokenOverride intent (completionResponse matched) := by
  cases hemp : (db.openTasks user).isEmpty with
  | true =>
    rw [_complete_tasks_no_open now db user raw intent input_type mOut
      (isEmpty_false_of hemp)] at hok
    simp only [Except.ok.injEq, Prod.mk.injEq] at hok
    exact ⟨[], by rw [← hok.2]; rfl⟩
  | false =>
    cases mOut with
    | error e =>
      rw [_complete_tasks_raises now db user raw intent input_type (.error e)
        e hemp rfl] at hok
      cases hok
    | ok o =>
      cases o with
      | none =>
        rw [_complete_tasks_with_ids now db user raw intent input_type (.ok none)
          (.arr []) hemp rfl rfl] at hok
        simp only [Except.ok.injEq, Prod.mk.injEq] at hok
        exact ⟨completeMatched now db user (.arr []), by rw [← hok.2]⟩
      | some j =>
        cases j with
        | obj fields =>
          cases hir : inRaises ((List.lookup "matched_ids" fields).getD (.arr [])) with
          | true =>
            rw [_complete_tasks_in_raises now db user raw intent input_type
              (.ok (some (.obj fields)))
              ((List.lookup "matched_ids" fields).getD (.arr [])) hemp rfl hir] at hok
            cases hok
          | false =>
            rw [_complete_tasks_with_ids now db user raw intent input_type
              (.ok (some (.obj fields)))
              ((List.lookup "matched_ids" fields).getD (.arr [])) hemp rfl hir] at hok
            simp only [Except.ok.injEq, Prod.mk.injEq] at hok
            exact ⟨_, by rw [← hok.2]⟩
        | null =>
          rw [_complete_tasks_raises now db user raw intent input_type
            (.ok (some .null)) () hemp rfl] at hok
          cases hok
        | bool b =>
          rw [_complete_tasks_raises now db user raw intent input_type
            (.ok (some (.bool b))) () hemp rfl] at hok
          cases hok
        | num n =>
          rw [_complete_tasks_raises now db user raw intent input_type
            (.ok (some (.num n))) () hemp rfl] at hok
          cases hok
        | str s =>
          rw [_complete_tasks_raises now db user raw intent input_type
            (.ok (some (.str s))) () hemp rfl] at hok
          cases hok
        | arr xs =>
          rw [_complete_tasks_raises now db user raw intent input_type
            (.ok (some (.arr xs))) () hemp rfl] at hok
          cases hok

/-- C9: the auto-completion post-processor derives its activity list only
from non-task intents via the fixed per-module phrasings (journal contents
verbatim, food as "Ate X", calendar as "Scheduled X", gym as "Did gym: X",
expense as "Spent money at X"), skips mood/remember/diary; and whenever there
is no open task or the derived list is empty it returns with no matcher
consultation, no task mutation, and nothing is appended to the response
list. -/
theorem C9_auto_completion_derivation (now : Nat) (db : DB) (user : Nat)
    (intents : List Json) (mOut : Except Unit (Option Json)) (intent : Json)
    (responses : List String) :
    (deriveActions (intent :: intents) =
      deriveAction intent ++ deriveActions intents) ∧
    ((intent.getD "module" (Json.str "")).asStr = "task" →
      deriveAction intent = []) ∧
    ((intent.getD "module" (Json.str "")).asStr = "mood" →
      deriveAction intent = []) ∧
    ((intent.getD "module" (Json.str "")).asStr = "remember" →
      deriveAction intent = []) ∧
    ((intent.getD "module" (Json.str "")).asStr = "diary" →
      deriveAction intent = []) ∧
    ((intent.getD "module" (Json.str "")).asStr = "journal" →
      deriveAction intent =
        ((intent.getD "data" (Json.obj [])).getD "activities"
          (Json.arr [])).asList.map
          (fun act => (act.getD "content" (Json.str "")).asStr)) ∧
    (∀ items : List Json, (intent.getD "module" (Json.str "")).asStr = "food" →
      (intent.getD "data" (Json.obj [])).getD "items" (Json.arr []) =
        Json.arr items → items ≠ [] →
      deriveAction intent =
        ["Ate " ++ String.intercalate ", " (items.map Json.asStr)]) ∧
    ((intent.getD "module" (Json.str "")).asStr = "calendar" →
      deriveAction intent =
        ["Scheduled " ++ ((intent.getD "data" (Json.obj [])).getD "title"
          (Json.str "")).pyStr]) ∧
    (∀ exercises : List Json,
      (intent.getD "module" (Json.str "")).asStr = "gym" →
      (intent.getD "data" (Json.obj [])).getD "exercises" (Json.arr []) =
        Json.arr exercises → exercises ≠ [] →
      deriveAction intent =
        ["Did gym: " ++ String.intercalate ", "
          (exercises.map (fun e => (e.getD "name" (Json.str "")).asStr))]) ∧
    ((intent.getD "module" (Json.str "")).asStr = "expense" →
      deriveAction intent =
        ["Spent money at " ++ ((intent.getD "data" (Json.obj [])).getD "vendor"
          (Json.str "somewhere")).pyStr]) ∧
    (db.openTasks user = [] ∨ deriveActions intents = [] →
      auto_complete_tasks now db user intents mOut = (db, [])) ∧
    appendAutoCompleteResponse responses [] = responses := by
  refine ⟨rfl, ?_, ?_, ?_, ?_, ?_, ?_, ?_, ?_, ?_, ?_, rfl⟩
  · intro h
    simp [deriveAction, h]
  · intro h
    simp [deriveAction, h]
  · intro h
    simp [deriveAction, h]
  · intro h
    simp [deriveAction, h]
  · intro h
    simp [deriveAction, h]
  · intro items h hitems hne
    have htr : (Json.arr items).truthy = true := by
      cases items with
      | nil => exact absurd rfl hne
      | cons a l => rfl
    simp [deriveAction, h, hitems, htr]
  · intro h
    simp [deriveAction, h]
  · intro exercises h hex hne
    have htr : (Json.arr exercises).truthy = true := by
      cases exercises with
      | nil => exact absurd rfl hne
      | cons a l => rfl
    simp [deriveAction, h, hex, htr, Json.asList]
  · intro h
    simp [deriveAction, h]
  · intro h
    rcases h with h | h
    · have hemp : (db.openTasks user).isEmpty = true := by rw [h]; rfl
      rw [auto_complete_tasks.eq_def, hemp]
      rfl
    · cases hemp : (db.openTasks user).isEmpty with
      | true =>
        rw [auto_complete_tasks.eq_def, hemp]
        rfl
      | false =>
        have hact : (deriveActions intents).isEmpty = true := by rw [h]; rfl
        rw [auto_complete_tasks.eq_def, hemp, hact]
        rfl

/-- C9 witness: with no open tasks the post-processor leaves the database
untouched and completes nothing, and the response list gets nothing
appended. -/
theorem C9_auto_completion_derivation_witness :
    auto_complete_tasks 0 DB.empty 1 [] (.ok none) = (DB.empty, []) :=
  (C9_auto_completion_derivation 0 DB.empty 1 [] (.ok none) (Json.obj [])
    []).2.2.2.2.2.2.2.2.2.2.1 (Or.inl rfl)

/-- C10: an intent that carries a spoken_response string gets it back
verbatim as the handler confirmation, for the generic store handler, both
task paths, the remember handler and the journal handler, regardless of the
internally computed phrasing. -/
theorem C10_spoken_response_precedence (parseIso : String → Option Nat)
    (now : Nat) (db : DB) (user : Nat) (raw : String) (intent : Json)
    (input_type : String) (imgdesc : Option String)
    (mOut : Except Unit (Option Json)) (s : String)
    (hs : intent.lookup "spoken_response" = some (.str s)) :
    (handle_memo db user raw intent input_type imgdesc).2.spoken_response = s ∧
    (_create_tasks parseIso db user raw intent input_type
      imgdesc).2.spoken_response = s ∧
    (∀ (db2 : DB) (res : HandlerResult),
      _complete_tasks now db user raw intent input_type mOut = .ok (db2, res) →
      res.spoken_response = s) ∧
    (handle_remember db user raw intent input_type imgdesc).2.spoken_response = s ∧
    (handle_journal now db user raw intent input_type imgdesc).2.spoken_response = s := by
  refine ⟨spokenOverride_of_str _ hs, spokenOverride_of_str _ hs, ?_,
    spokenOverride_of_str _ hs, spokenOverride_of_str _ hs⟩
  intro db2 res hok
  obtain ⟨matched, hsp⟩ := _complete_tasks_ok_spoken now db user raw intent
    input_type mOut db2 res hok
  rw [hsp]
  exact spokenOverride_of_str _ hs

/-- C10 witness: a concrete intent carrying spoken_response "Logged it!" gets
exactly that string back from the generic store handler. -/
theorem C10_spoken_response_precedence_witness :
    (handle_memo DB.empty 1 "r"
      (Json.obj [("spoken_response", Json.str "Logged it!")]) "text"
      none).2.spoken_response = "Logged it!" :=
  (C10_spoken_response_precedence (fun _ => none) 0 DB.empty 1 "r"
    (Json.obj [("spoken_response", Json.str "Logged it!")]) "text" none
    (.ok none) "Logged it!" rfl).1

end Planner
